import Mathlib

/-!
Shallow embedding of the studio-cast asynchronous pipeline core:
the durable job queue with atomic claim semantics (transcode worker,
`src/unnamed/part_007`, and its twins for asr/export), the export
executor's source-track selection (`src/src/workers/export.worker.ts`),
and the upload finalization layer (`src/src/services/uploads.service.ts`
together with `markUploadCompletedAndSetRawKey` and `createJob` from the
repositories).  Database rows become Lean structures, the store a list of
rows; each Prisma transaction becomes one pure function on that state.
-/

namespace StudioCast

/-! ## Job store (tables and enums from the prisma schema) -/

/-- Enum job_type from the prisma schema. -/
inductive JobType where
  | transcode
  | asr
  | export
deriving DecidableEq, Repr

/-- Enum job_state from the prisma schema. -/
inductive JobState where
  | queued
  | running
  | succeeded
  | failed
  | dead
deriving DecidableEq, Repr

/-- Row of the job table (JobRow in the workers).  payload_json is an opaque
blob holding the referenced entity id (trackId for transcode/asr, exportId
for export); we keep just that optional id. -/
structure Job where
  id : Nat
  recording_id : String
  type : JobType
  state : JobState
  payloadId : Option String
  attempts : Nat
  last_error : Option String
  created_at : Nat
deriving DecidableEq, Repr

/-- MAX_ATTEMPTS = 3 in every worker. -/
def MAX_ATTEMPTS : Nat := 3

/-- Comparator used by findFirst orderBy created_at asc. -/
def jobLe (a b : Job) : Bool := a.created_at ≤ b.created_at

/-- Predicate of the claim query: queued jobs of the requested type. -/
def queuedOf (t : JobType) (j : Job) : Bool :=
  j.type == t && j.state == JobState.queued

/-- claimOneTranscodeJob (and the identical claimOneExportJob / asr variant):
one transaction that selects the oldest queued job of the type, marks it
running, increments attempts and returns the updated row.  The transaction
is one atomic step on the store; findFirst with orderBy created_at asc is
the head of the stable sort of the matching rows. -/
def claimNextJob (t : JobType) (s : List Job) : Option Job × List Job :=
  match ((s.filter (queuedOf t)).mergeSort jobLe).head? with
  | none => (none, s)
  | some j =>
      let upd : Job := { j with state := JobState.running, attempts := j.attempts + 1 }
      (some upd, s.map fun x => if x.id == j.id then upd else x)

/-- succeed(jobId): set state succeeded and clear last_error on the row. -/
def succeedJob (jobId : Nat) (s : List Job) : List Job :=
  s.map fun x =>
    if x.id == jobId then { x with state := JobState.succeeded, last_error := none } else x

/-- Thrown JS error as the workers see it: optional code plus message. -/
structure JsError where
  code : Option String
  message : String
deriving DecidableEq, Repr

/-- The stored message: (err?.code ? code + ": " : "") + err.message. -/
def errMessage (e : JsError) : String :=
  (match e.code with
   | some c => c ++ ": "
   | none => "") ++ e.message

/-- fail(job, err) of the workers: attemptsLeft = MAX_ATTEMPTS - job.attempts > 0;
requeue when attempts are left, otherwise mark failed; store the error text
truncated to 8000 characters.  job is the row returned by the claim
(attempts already incremented). -/
def failJob (j : Job) (e : JsError) (s : List Job) : List Job :=
  let attemptsLeft : Bool := decide (0 < MAX_ATTEMPTS - j.attempts)
  s.map fun x =>
    if x.id == j.id then
      { x with
        state := if attemptsLeft then JobState.queued else JobState.failed,
        last_error := some ((errMessage e).take 8000) }
    else x

/-- One iteration of the worker loop body: claim; if a job was claimed run
the executor, then succeed or fail it.  run returns none on success and the
thrown error otherwise. -/
def workerIteration (t : JobType) (run : Job → Option JsError) (s : List Job) :
    Option Job × List Job :=
  match claimNextJob t s with
  | (none, s1) => (none, s1)
  | (some j, s1) =>
      match run j with
      | none => (some j, succeedJob j.id s1)
      | some e => (some j, failJob j e s1)

/-- n claim calls performed in sequence (the serialization of n concurrent
callers, every call being one atomic transaction). -/
def claimMany (t : JobType) : Nat → List Job → List (Option Job) × List Job
  | 0, s => ([], s)
  | n + 1, s =>
      let r := claimNextJob t s
      let rest := claimMany t n r.2
      (r.1 :: rest.1, rest.2)

/-- Terminal job states. -/
def JobState.isTerminal : JobState → Bool
  | JobState.succeeded => true
  | JobState.failed => true
  | JobState.dead => true
  | _ => false

/-- The operations any part of the system performs on the job store: a claim
transaction; resolution of a job by the worker that claimed it (the claimed
job is running, and stays running until its claimant resolves it, because
claims pick only queued rows); and enqueue of a new queued job
(prisma.job.create with state queued). -/
inductive SysStep : List Job → List Job → Prop where
  | claim (t : JobType) (s : List Job) : SysStep s (claimNextJob t s).2
  | resolveOk (j : Job) (s : List Job) (hj : j ∈ s)
      (hrun : j.state = JobState.running) : SysStep s (succeedJob j.id s)
  | resolveErr (j : Job) (e : JsError) (s : List Job) (hj : j ∈ s)
      (hrun : j.state = JobState.running) : SysStep s (failJob j e s)
  | enqueue (jb : Job) (s : List Job) (hq : jb.state = JobState.queued) :
      SysStep s (s ++ [jb])

/-- Store evolution of one worker-loop iteration. -/
def workerStep (t : JobType) (run : Job → Option JsError) (s : List Job) : List Job :=
  (workerIteration t run s).2

/-- Executor that throws on every attempt; errs gives the error thrown while
the job's attempts counter has the given value. -/
def alwaysFailRun (errs : Nat → JsError) : Job → Option JsError :=
  fun j => some (errs j.attempts)

/-- Job j after its k-th retryable failure: requeued with the truncated
error text stored and attempts = k. -/
def retryJob (j : Job) (errs : Nat → JsError) (k : Nat) : Job :=
  { j with
    state := JobState.queued
    attempts := k
    last_error := some ((errMessage (errs k)).take 8000) }

/-- Job j after its third (final) failure: failed, attempts = 3. -/
def failedJob (j : Job) (errs : Nat → JsError) : Job :=
  { j with
    state := JobState.failed
    attempts := 3
    last_error := some ((errMessage (errs 3)).take 8000) }

/-! ## Lemmas about the claim transaction -/

lemma claimNextJob_of_no_queued (t : JobType) (s : List Job)
    (h : s.filter (queuedOf t) = []) : claimNextJob t s = (none, s) := by
  simp [claimNextJob, h]

lemma claimMany_none (t : JobType) (n : Nat) (s : List Job)
    (h : s.filter (queuedOf t) = []) :
    claimMany t n s = (List.replicate n none, s) := by
  induction n with
  | zero => simp [claimMany]
  | succ n ih => simp [claimMany, claimNextJob_of_no_queued t s h, ih, List.replicate_succ]

lemma filter_map_update_eq_nil (t : JobType) (s : List Job) (j0 upd : Job)
    (hupd : queuedOf t upd = false)
    (hf : s.filter (queuedOf t) = [j0]) :
    (s.map fun x => if x.id == j0.id then upd else x).filter (queuedOf t) = [] := by
  rw [List.filter_eq_nil_iff]
  intro a ha
  obtain ⟨x, hx, rfl⟩ := List.mem_map.mp ha
  by_cases hid : (x.id == j0.id) = true
  · rw [if_pos hid, hupd]
    simp
  · rw [if_neg hid]
    intro hq
    have hxin : x ∈ s.filter (queuedOf t) := List.mem_filter.mpr ⟨hx, hq⟩
    rw [hf, List.mem_singleton] at hxin
    subst hxin
    exact hid (beq_self_eq_true _)

lemma claimNextJob_inv (t : JobType) (s : List Job) (jc : Job) (s3 : List Job)
    (h : claimNextJob t s = (some jc, s3)) :
    ∃ j0, j0 ∈ s ∧ j0.state = JobState.queued ∧
      jc = { j0 with state := JobState.running, attempts := j0.attempts + 1 } ∧
      s3 = s.map fun x => if x.id == j0.id then jc else x := by
  unfold claimNextJob at h
  cases hh : ((s.filter (queuedOf t)).mergeSort jobLe).head? with
  | none => rw [hh] at h; cases h
  | some j0 =>
      rw [hh] at h
      have hmem0 : j0 ∈ (s.filter (queuedOf t)).mergeSort jobLe := by
        cases hl : (s.filter (queuedOf t)).mergeSort jobLe with
        | nil => rw [hl] at hh; cases hh
        | cons b bl =>
            rw [hl] at hh
            simp only [List.head?_cons, Option.some.injEq] at hh
            rw [hh] at *
            exact List.mem_cons_self _ _
      have hmemf : j0 ∈ s.filter (queuedOf t) :=
        (List.mergeSort_perm (s.filter (queuedOf t)) jobLe).mem_iff.mp hmem0
      have hmem : j0 ∈ s := (List.mem_filter.mp hmemf).1
      have hqd : queuedOf t j0 = true := (List.mem_filter.mp hmemf).2
      have hst : j0.state = JobState.queued := by
        have := (Bool.and_eq_true _ _).mp hqd
        exact eq_of_beq this.2
      obtain ⟨h1, h2⟩ := Prod.mk.injEq .. ▸ h
      refine ⟨j0, hmem, hst, ?_, ?_⟩
      · exact (Option.some.injEq _ _ ▸ h1).symm
      · rw [← h2]
        have : jc = { j0 with state := JobState.running, attempts := j0.attempts + 1 } :=
          (Option.some.injEq _ _ ▸ h1).symm
        rw [this]

lemma claimNextJob_none_store (t : JobType) (s : List Job) (s3 : List Job)
    (h : claimNextJob t s = (none, s3)) : s3 = s := by
  unfold claimNextJob at h
  cases hh : ((s.filter (queuedOf t)).mergeSort jobLe).head? with
  | none => rw [hh] at h; cases h; rfl
  | some j0 => rw [hh] at h; cases h

/-! ## C1, C2, C5, C6 -/

/-- C1: for every serialization of N concurrent claimNext calls of one job
type against a store holding exactly one queued job of that type, exactly
one call (the first to commit) returns that job, transitioned to running
with attempts incremented; the other N−1 calls return none, so no two
callers ever obtain the same row.  Each call is the atomic claim
transaction of claimOneTranscodeJob. -/
theorem claim_exclusive (t : JobType) (s : List Job) (j0 : Job) (n : Nat)
    (hn : 0 < n) (hf : s.filter (queuedOf t) = [j0]) :
    claimMany t n s =
      (some { j0 with state := JobState.running, attempts := j0.attempts + 1 }
         :: List.replicate (n - 1) none,
       s.map fun x =>
         if x.id == j0.id then
           { j0 with state := JobState.running, attempts := j0.attempts + 1 }
         else x) := by
  cases n with
  | zero => exact absurd hn (by simp)
  | succ m =>
      have hone : claimNextJob t s =
          (some { j0 with state := JobState.running, attempts := j0.attempts + 1 },
           s.map fun x =>
             if x.id == j0.id then
               { j0 with state := JobState.running, attempts := j0.attempts + 1 }
             else x) := by
        unfold claimNextJob
        rw [hf, List.mergeSort_singleton]
        rfl
      have hafter :
          (s.map fun x =>
            if x.id == j0.id then
              { j0 with state := JobState.running, attempts := j0.attempts + 1 }
            else x).filter (queuedOf t) = [] := by
        apply filter_map_update_eq_nil t s j0 _ _ hf
        simp [queuedOf]
      show claimMany t (m + 1) s = _
      rw [claimMany, hone]
      simp only [claimMany_none t m _ hafter, Nat.add_sub_cancel]

/-- C2: a transcode job whose executor throws on every attempt is claimed
exactly 3 times (MAX_ATTEMPTS); after each of the first two failures it is
back in state queued with the truncated error stored, after the third it is
failed with attempts = 3, and it is never claimed again (further iterations
of the worker loop return none and leave the store fixed). -/
theorem retry_bound (j : Job) (errs : Nat → JsError)
    (hq : j.state = JobState.queued) (ha : j.attempts = 0)
    (ht : j.type = JobType.transcode) :
    (workerIteration JobType.transcode (alwaysFailRun errs) [j]).1
        = some { j with state := JobState.running, attempts := 1 }
    ∧ workerStep JobType.transcode (alwaysFailRun errs) [j] = [retryJob j errs 1]
    ∧ (workerIteration JobType.transcode (alwaysFailRun errs) [retryJob j errs 1]).1
        = some { j with state := JobState.running, attempts := 2, last_error := some ((errMessage (errs 1)).take 8000) }
    ∧ workerStep JobType.transcode (alwaysFailRun errs) [retryJob j errs 1] = [retryJob j errs 2]
    ∧ (workerIteration JobType.transcode (alwaysFailRun errs) [retryJob j errs 2]).1
        = some { j with state := JobState.running, attempts := 3, last_error := some ((errMessage (errs 2)).take 8000) }
    ∧ workerStep JobType.transcode (alwaysFailRun errs) [retryJob j errs 2] = [failedJob j errs]
    ∧ (failedJob j errs).state = JobState.failed
    ∧ (failedJob j errs).attempts = 3
    ∧ (workerIteration JobType.transcode (alwaysFailRun errs) [failedJob j errs]).1 = none
    ∧ ∀ m : Nat,
        (workerStep JobType.transcode (alwaysFailRun errs))^[m] [failedJob j errs]
          = [failedJob j errs] := by
  have hfix : workerStep JobType.transcode (alwaysFailRun errs) [failedJob j errs]
      = [failedJob j errs] := by
    simp [workerStep, workerIteration, claimNextJob, queuedOf, failedJob]
  refine ⟨?_, ?_, ?_, ?_, ?_, ?_, rfl, rfl, ?_, fun m => Function.iterate_fixed hfix m⟩
  · simp [workerIteration, claimNextJob, queuedOf, hq, ha, ht, alwaysFailRun,
      List.mergeSort_singleton]
  · simp [workerStep, workerIteration, claimNextJob, queuedOf, hq, ht, ha, alwaysFailRun,
      List.mergeSort_singleton, failJob, MAX_ATTEMPTS, retryJob]
  · simp [workerIteration, claimNextJob, queuedOf, retryJob, ht, alwaysFailRun,
      List.mergeSort_singleton]
  · simp [workerStep, workerIteration, claimNextJob, queuedOf, retryJob, ht, alwaysFailRun,
      List.mergeSort_singleton, failJob, MAX_ATTEMPTS]
  · simp [workerIteration, claimNextJob, queuedOf, retryJob, ht, alwaysFailRun,
      List.mergeSort_singleton]
  · simp [workerStep, workerIteration, claimNextJob, queuedOf, retryJob, failedJob, ht,
      alwaysFailRun, List.mergeSort_singleton, failJob, MAX_ATTEMPTS]
  · simp [workerIteration, claimNextJob, queuedOf, failedJob]

/-- C5: once a job is succeeded, failed or dead, no operation of the system
(claim transaction of any type, resolution by a worker of the running job it
claimed, enqueue of a new job) changes its row, and no claimNext call of any
type returns it.  Rows carry unique ids (database primary key). -/
theorem terminal_immutable (s s2 : List Job) (hstep : SysStep s s2)
    (hnd : (s.map Job.id).Nodup) (x : Job) (hx : x ∈ s)
    (hterm : x.state.isTerminal = true) :
    x ∈ s2 ∧ ∀ (t : JobType) (jc : Job) (s3 : List Job),
      claimNextJob t s = (some jc, s3) → jc.id ≠ x.id := by
  have hclaim : ∀ (t : JobType) (jc : Job) (s3 : List Job),
      claimNextJob t s = (some jc, s3) → jc.id ≠ x.id := by
    intro t jc s3 hcl
    obtain ⟨j0, hj0, hst, hjc, _⟩ := claimNextJob_inv t s jc s3 hcl
    have hjcid : jc.id = j0.id := by rw [hjc]
    rw [hjcid]
    intro heq
    have : j0 = x := List.inj_on_of_nodup_map hnd hj0 hx heq
    rw [this] at hst
    rw [hst] at hterm
    simp [JobState.isTerminal] at hterm
  refine ⟨?_, hclaim⟩
  cases hstep with
  | claim t s =>
      cases hres : claimNextJob t s with
      | mk o s3 =>
          cases o with
          | none =>
              show x ∈ s3
              rw [claimNextJob_none_store t s s3 hres]
              exact hx
          | some jc =>
              obtain ⟨j0, hj0, hst, hjc, hs3⟩ := claimNextJob_inv t s jc s3 hres
              show x ∈ s3
              rw [hs3]
              have hxid : (x.id == j0.id) = false := by
                rw [beq_eq_false_iff_ne]
                intro heq
                have : x = j0 := List.inj_on_of_nodup_map hnd hx hj0 heq
                rw [← this] at hst
                rw [hst] at hterm
                simp [JobState.isTerminal] at hterm
              have := List.mem_map_of_mem
                (fun y => if y.id == j0.id then jc else y) hx
              simpa [hxid] using this
  | resolveOk j s hj hrun =>
      have hxid : (x.id == j.id) = false := by
        rw [beq_eq_false_iff_ne]
        intro heq
        have : x = j := List.inj_on_of_nodup_map hnd hx hj heq
        rw [← this] at hrun
        rw [hrun] at hterm
        simp [JobState.isTerminal] at hterm
      have := List.mem_map_of_mem
        (fun y => if y.id == j.id then { y with state := JobState.succeeded, last_error := none } else y) hx
      simpa [succeedJob, hxid] using this
  | resolveErr j e s hj hrun =>
      have hxid : (x.id == j.id) = false := by
        rw [beq_eq_false_iff_ne]
        intro heq
        have : x = j := List.inj_on_of_nodup_map hnd hx hj heq
        rw [← this] at hrun
        rw [hrun] at hterm
        simp [JobState.isTerminal] at hterm
      have := List.mem_map_of_mem
        (fun y => if y.id == j.id then
            { y with
              state := if decide (0 < MAX_ATTEMPTS - j.attempts) then JobState.queued
                       else JobState.failed,
              last_error := some ((errMessage e).take 8000) }
          else y) hx
      simpa [failJob, hxid] using this
  | enqueue jb s hq => exact List.mem_append_left _ hx

/-! ## Concrete rows used to instantiate the hypotheses of the theorems above -/

/-- Concrete queued transcode job. -/
def jW : Job :=
  { id := 1, recording_id := "rec", type := JobType.transcode, state := JobState.queued,
    payloadId := some "trk", attempts := 0, last_error := none, created_at := 5 }

/-- Concrete executor error sequence. -/
def errsW : Nat → JsError := fun _ => { code := none, message := "boom" }

/-- Concrete job already in a terminal state. -/
def termJobW : Job :=
  { id := 0, recording_id := "rec", type := JobType.transcode, state := JobState.succeeded,
    payloadId := none, attempts := 3, last_error := none, created_at := 0 }

/-- Concrete freshly enqueued job. -/
def newJobW : Job :=
  { id := 7, recording_id := "rec", type := JobType.export, state := JobState.queued,
    payloadId := some "exp", attempts := 0, last_error := none, created_at := 9 }

/-- Witness for C1: two serialized claim calls against a store holding
exactly the one queued job jW; the first gets it, the second gets none. -/
theorem claim_exclusive_witness :
    claimMany JobType.transcode 2 [jW] =
      (some { jW with state := JobState.running, attempts := jW.attempts + 1 }
         :: List.replicate (2 - 1) none,
       [jW].map fun x =>
         if x.id == jW.id then
           { jW with state := JobState.running, attempts := jW.attempts + 1 }
         else x) :=
  claim_exclusive JobType.transcode [jW] jW 2 (by decide) (by decide)

/-- Witness for C2 at the concrete job jW and error sequence errsW. -/
theorem retry_bound_witness :
    workerStep JobType.transcode (alwaysFailRun errsW) [retryJob jW errsW 2]
        = [failedJob jW errsW]
      ∧ (failedJob jW errsW).state = JobState.failed
      ∧ (failedJob jW errsW).attempts = 3
      ∧ (workerIteration JobType.transcode (alwaysFailRun errsW) [failedJob jW errsW]).1 = none :=
  ⟨(retry_bound jW errsW rfl rfl rfl).2.2.2.2.2.1,
   (retry_bound jW errsW rfl rfl rfl).2.2.2.2.2.2.1,
   (retry_bound jW errsW rfl rfl rfl).2.2.2.2.2.2.2.1,
   (retry_bound jW errsW rfl rfl rfl).2.2.2.2.2.2.2.2.1⟩

/-- Witness for C5: a succeeded job survives an enqueue step untouched. -/
theorem terminal_immutable_witness :
    termJobW ∈ [termJobW] ++ [newJobW] :=
  (terminal_immutable [termJobW] ([termJobW] ++ [newJobW])
    (SysStep.enqueue newJobW [termJobW] rfl) (by decide) termJobW (by decide) rfl).1

/-! ## C6: permanent errors (bad_payload) and the failure handler -/

/-- Job claimed on its first attempt (attempts = 1) whose executor threw
bad_payload, as runJob does for a payload without trackId. -/
def cexBadJob : Job :=
  { id := 0, recording_id := "rec", type := JobType.transcode, state := JobState.running,
    payloadId := none, attempts := 1, last_error := none, created_at := 0 }

/-- The bad_payload error runJob throws (payload_missing_trackId). -/
def cexBadErr : JsError :=
  { code := some "bad_payload", message := "payload_missing_trackId" }

/-- C6 counterexample: a job failing with code bad_payload on its first
attempt is requeued (state queued), not moved to failed or dead, so the
failure handler does retry permanent bad_payload errors. -/
theorem bad_payload_requeued_cex :
    (failJob cexBadJob cexBadErr [cexBadJob]).map Job.state = [JobState.queued]
      ∧ JobState.queued ≠ JobState.failed ∧ JobState.queued ≠ JobState.dead := by
  refine ⟨?_, by decide, by decide⟩
  simp [failJob, cexBadJob, MAX_ATTEMPTS]

lemma find?_update_map (s : List Job) (j : Job) (f : Job → Job)
    (hpres : ∀ x, (f x).id = x.id) (hj : j ∈ s) (hnd : (s.map Job.id).Nodup) :
    (s.map fun x => if x.id == j.id then f x else x).find? (fun x => x.id == j.id)
      = some (f j) := by
  induction s with
  | nil => cases hj
  | cons a tl ih =>
      simp only [List.map_cons]
      by_cases hid : (a.id == j.id) = true
      · rw [if_pos hid]
        have haj : a = j := by
          cases List.mem_cons.mp hj with
          | inl h => exact h.symm
          | inr h =>
              exfalso
              have haid : a.id = j.id := eq_of_beq hid
              have hmem : j.id ∈ tl.map Job.id := List.mem_map_of_mem Job.id h
              have hnot : a.id ∉ tl.map Job.id :=
                (List.nodup_cons.mp (by simpa using hnd)).1
              exact hnot (haid ▸ hmem)
        rw [List.find?_cons_of_pos]
        · rw [haj]
        · rw [hpres a]; exact hid
      · rw [if_neg hid, List.find?_cons_of_neg]
        · apply ih
          · cases List.mem_cons.mp hj with
            | inl h =>
                exfalso
                apply hid
                rw [h]
                exact beq_self_eq_true _
            | inr h => exact h
          · exact (List.nodup_cons.mp (by simpa using hnd)).2
        · exact hid

/-- C6 amended: a bad_payload failure is handled exactly like any other
failure: the job is requeued while attempts < MAX_ATTEMPTS and only marked
failed once attempts ≥ MAX_ATTEMPTS; the handler never fast-fails it to
failed or dead on the first attempt. -/
theorem bad_payload_retried (j : Job) (e : JsError) (s : List Job)
    (hcode : e.code = some "bad_payload") (hj : j ∈ s)
    (hnd : (s.map Job.id).Nodup) :
    (failJob j e s).find? (fun x => x.id == j.id)
      = some { j with
               state := if j.attempts < MAX_ATTEMPTS then JobState.queued
                        else JobState.failed,
               last_error := some ((errMessage e).take 8000) } := by
  simp only [failJob]
  rw [find?_update_map s j
    (fun x =>
      { x with
        state := if decide (0 < MAX_ATTEMPTS - j.attempts) = true then JobState.queued
                 else JobState.failed
        last_error := some ((errMessage e).take 8000) })
    (fun _ => rfl) hj hnd]
  have hiff : (0 < MAX_ATTEMPTS - j.attempts) ↔ (j.attempts < MAX_ATTEMPTS) := by
    simp only [MAX_ATTEMPTS]
    omega
  simp only [decide_eq_true_eq, hiff]

/-- Witness for the amended C6 theorem at the concrete bad_payload failure. -/
theorem bad_payload_retried_witness :
    (failJob cexBadJob cexBadErr [cexBadJob]).find? (fun x => x.id == cexBadJob.id)
      = some { cexBadJob with
               state := if cexBadJob.attempts < MAX_ATTEMPTS then JobState.queued
                        else JobState.failed,
               last_error := some ((errMessage cexBadErr).take 8000) } :=
  bad_payload_retried cexBadJob cexBadErr [cexBadJob] rfl (by decide) (by decide)

/-! ## Track rows and the export executor's source-track selection
(src/src/workers/export.worker.ts, runJob) -/

/-- Enum track_kind. -/
inductive TrackKind where
  | audio
  | video
deriving DecidableEq, Repr

/-- Enum track_state. -/
inductive TrackState where
  | recording
  | uploaded
  | processed
deriving DecidableEq, Repr

/-- Enum export_type. -/
inductive ExportType where
  | wav
  | mp4
  | mp4_captions
deriving DecidableEq, Repr

/-- Row of the track table. -/
structure Track where
  id : String
  recording_id : String
  participant_id : String
  kind : TrackKind
  codec : Option String
  duration_ms : Option Nat
  storage_key_raw : Option String
  storage_key_final : Option String
  state : TrackState
  created_at : Nat
deriving DecidableEq, Repr

/-- Comparator of findMany orderBy created_at asc. -/
def trackLe (a b : Track) : Bool := a.created_at ≤ b.created_at

/-- Where-clause of the export worker's track query:
state = processed AND storage_key_final not null. -/
def processedWithFinal (t : Track) : Bool :=
  t.state == TrackState.processed && t.storage_key_final.isSome

/-- The tracks list the export worker loads: processed tracks with a final
key, in ascending creation order. -/
def processedTracks (tracks : List Track) : List Track :=
  (tracks.filter processedWithFinal).mergeSort trackLe

/-- Kind the executor looks for: audio when the export type is wav, video
otherwise (artifact.type === export_type.wav ? audio : video). -/
def wantedKind (ty : ExportType) : TrackKind :=
  if ty == ExportType.wav then TrackKind.audio else TrackKind.video

/-- Source-track selection of the export executor: tracks.find(kind match)
?? tracks[0] over the loaded list; none when no processed track exists
(runJob then throws no_tracks). -/
def pickSourceTrack (ty : ExportType) (tracks : List Track) : Option Track :=
  match processedTracks tracks with
  | [] => none
  | t0 :: rest => some (((t0 :: rest).find? fun t => t.kind == wantedKind ty).getD t0)

/-- Selection the spec describes, formalized from its words for comparison:
the recording's most-recently-processed audio track for a wav export, the
most-recently-processed video track otherwise.  The schema stores no
processing timestamp, so the latest matching track in creation order stands
for the most recently processed one. -/
def specSourceTrack (ty : ExportType) (tracks : List Track) : Option Track :=
  ((tracks.filter fun t => processedWithFinal t && t.kind == wantedKind ty).mergeSort
    trackLe).getLast?

lemma trackLe_trans : ∀ a b c : Track, trackLe a b = true → trackLe b c = true →
    trackLe a c = true := by
  intro a b c hab hbc
  simp only [trackLe, decide_eq_true_eq] at *
  omega

lemma trackLe_total : ∀ a b : Track, (trackLe a b || trackLe b a) = true := by
  intro a b
  simp only [trackLe, Bool.or_eq_true, decide_eq_true_eq]
  omega

lemma find?_min_of_sorted (p : Track → Bool) (l : List Track)
    (hs : l.Pairwise fun a b => trackLe a b = true) (t : Track)
    (h : l.find? p = some t) :
    ∀ u ∈ l, p u = true → t.created_at ≤ u.created_at := by
  induction l with
  | nil => cases h
  | cons a tl ih =>
      by_cases hpa : p a = true
      · rw [List.find?_cons_of_pos _ hpa, Option.some.injEq] at h
        subst h
        intro u hu hpu
        cases List.mem_cons.mp hu with
        | inl he => rw [he]
        | inr htl =>
            have := (List.pairwise_cons.mp hs).1 u htl
            simpa [trackLe] using this
      · rw [List.find?_cons_of_neg _ hpa] at h
        intro u hu hpu
        cases List.mem_cons.mp hu with
        | inl he => rw [he] at hpu; exact absurd hpu hpa
        | inr htl => exact ih (List.pairwise_cons.mp hs).2 h u htl hpu

lemma head_min_of_sorted (a : Track) (tl : List Track)
    (hs : (a :: tl).Pairwise fun x y => trackLe x y = true) :
    ∀ u ∈ a :: tl, a.created_at ≤ u.created_at := by
  intro u hu
  cases List.mem_cons.mp hu with
  | inl he => rw [he]
  | inr htl =>
      have := (List.pairwise_cons.mp hs).1 u htl
      simpa [trackLe] using this

/-- Concrete processed audio tracks: trA created first, trB created last. -/
def trA : Track :=
  { id := "A", recording_id := "rec", participant_id := "p", kind := TrackKind.audio,
    codec := none, duration_ms := none, storage_key_raw := some "rawA",
    storage_key_final := some "finA", state := TrackState.processed, created_at := 1 }

/-- Concrete processed audio track created after trA. -/
def trB : Track :=
  { id := "B", recording_id := "rec", participant_id := "p", kind := TrackKind.audio,
    codec := none, duration_ms := none, storage_key_raw := some "rawB",
    storage_key_final := some "finB", state := TrackState.processed, created_at := 2 }

lemma pick_wav_concrete : pickSourceTrack ExportType.wav [trA, trB] = some trA := by
  have hfil : [trA, trB].filter processedWithFinal = [trA, trB] := by decide
  have h1 : processedTracks [trA, trB] = [trA, trB] := by
    rw [processedTracks, hfil]
    exact List.mergeSort_of_sorted (by decide)
  unfold pickSourceTrack
  rw [h1]
  decide

lemma spec_wav_concrete : specSourceTrack ExportType.wav [trA, trB] = some trB := by
  have hfil :
      ([trA, trB].filter fun t => processedWithFinal t && t.kind == wantedKind ExportType.wav)
        = [trA, trB] := by decide
  unfold specSourceTrack
  rw [hfil, List.mergeSort_of_sorted (by decide)]
  decide

/-- C7 counterexample: with two processed audio tracks, the wav export
executor picks the earliest-created one (trA), not the most recently
processed one (trB) that the claim describes. -/
theorem export_source_cex :
    pickSourceTrack ExportType.wav [trA, trB] = some trA
      ∧ specSourceTrack ExportType.wav [trA, trB] = some trB
      ∧ trA ≠ trB :=
  ⟨pick_wav_concrete, spec_wav_concrete, by decide⟩

/-- C7 amended: the export executor selects the EARLIEST-created processed
track (with a final key) of the matching kind — audio for wav exports,
video otherwise — and, when no processed track of that kind exists, falls
back to the earliest-created processed track of any kind. -/
theorem export_source_earliest (ty : ExportType) (tracks : List Track) (t : Track)
    (h : pickSourceTrack ty tracks = some t) :
    t ∈ tracks ∧ processedWithFinal t = true
      ∧ ((∃ u ∈ tracks, processedWithFinal u = true ∧ u.kind = wantedKind ty) →
          t.kind = wantedKind ty ∧
            ∀ u ∈ tracks, processedWithFinal u = true → u.kind = wantedKind ty →
              t.created_at ≤ u.created_at)
      ∧ ((¬ ∃ u ∈ tracks, processedWithFinal u = true ∧ u.kind = wantedKind ty) →
          ∀ u ∈ tracks, processedWithFinal u = true → t.created_at ≤ u.created_at) := by
  have hperm : (processedTracks tracks).Perm (tracks.filter processedWithFinal) :=
    List.mergeSort_perm _ _
  have hsorted : (processedTracks tracks).Pairwise fun a b => trackLe a b = true :=
    List.sorted_mergeSort trackLe_trans trackLe_total _
  have hmemL : ∀ u : Track, u ∈ processedTracks tracks ↔
      (u ∈ tracks ∧ processedWithFinal u = true) := by
    intro u
    rw [hperm.mem_iff, List.mem_filter]
  unfold pickSourceTrack at h
  cases hL : processedTracks tracks with
  | nil => rw [hL] at h; cases h
  | cons t0 rest =>
      rw [hL] at h
      rw [Option.some.injEq] at h
      rw [hL] at hsorted hmemL
      cases hf : (t0 :: rest).find? fun u => u.kind == wantedKind ty with
      | some v =>
          rw [hf] at h
          simp only [Option.getD_some] at h
          rw [h] at hf
          have hmemu : t ∈ t0 :: rest := List.mem_of_find?_eq_some hf
          have hkind : t.kind = wantedKind ty := by
            have := List.find?_some hf
            simpa using this
          have hmem : t ∈ tracks ∧ processedWithFinal t = true := (hmemL t).mp hmemu
          refine ⟨hmem.1, hmem.2, fun _ => ⟨hkind, ?_⟩, fun hno => ?_⟩
          · intro u2 hu2 hp2 hk2
            exact find?_min_of_sorted _ _ hsorted t hf u2
              ((hmemL u2).mpr ⟨hu2, hp2⟩) (by simp [hk2])
          · exact absurd ⟨t, hmem.1, hmem.2, hkind⟩ hno
      | none =>
          rw [hf] at h
          simp only [Option.getD_none] at h
          rw [h] at hsorted hmemL hf
          have hmem : t ∈ tracks ∧ processedWithFinal t = true :=
            (hmemL t).mp (List.mem_cons_self _ _)
          have hnone : ∀ u ∈ t :: rest, ¬ (u.kind == wantedKind ty) = true :=
            List.find?_eq_none.mp hf
          refine ⟨hmem.1, hmem.2, fun hex => ?_, fun _ => ?_⟩
          · obtain ⟨u, hu, hp, hk⟩ := hex
            exact absurd (by simp [hk]) (hnone u ((hmemL u).mpr ⟨hu, hp⟩))
          · intro u hu hp
            exact head_min_of_sorted t rest hsorted u ((hmemL u).mpr ⟨hu, hp⟩)

/-- Witness for the amended C7 theorem: the selected track for a wav export
over the concrete store is a processed audio track of the recording. -/
theorem export_source_earliest_witness :
    trA ∈ [trA, trB] ∧ processedWithFinal trA = true :=
  ⟨(export_source_earliest ExportType.wav [trA, trB] trA pick_wav_concrete).1,
   (export_source_earliest ExportType.wav [trA, trB] trA pick_wav_concrete).2.1⟩

/-! ## Upload rows and the finalization services
(src/src/services/uploads.service.ts, upload.repo.ts, job.repo.ts) -/

/-- Upload.state: the code writes only in_progress (at creation) and
completed (at finalization). -/
inductive UpState where
  | in_progress
  | completed
deriving DecidableEq, Repr

/-- Row of the upload table (with the multipart plan columns). -/
structure Upload where
  id : String
  track_id : String
  protocol : String
  bytes_received : Nat
  state : UpState
  expected_size : Option Nat
  multipart_id : Option String
  object_key : Option String
  part_size : Option Nat
  storage_bucket : Option String
deriving DecidableEq, Repr

/-- JS truthiness of an optional string column (null and "" are falsy). -/
def truthy : Option String → Bool
  | some s => s != ""
  | none => false

/-- The persistent state the finalization services touch. -/
structure DB where
  uploads : List Upload
  tracks : List Track
  jobs : List Job
deriving DecidableEq, Repr

/-- prisma.upload.findUnique by id. -/
def findUpload (db : DB) (uploadId : String) : Option Upload :=
  db.uploads.find? fun u => u.id == uploadId

/-- prisma.track.findUnique by id (the include: track relation). -/
def findTrack (db : DB) (trackId : String) : Option Track :=
  db.tracks.find? fun t => t.id == trackId

/-- createJob of job.repo.ts: insert a queued job with the given recording
and payload; the database generates id and created_at (modelled as a fresh
counter). -/
def createJob (db : DB) (recordingId : String) (t : JobType) (payload : Option String) : DB :=
  { db with
    jobs := db.jobs ++
      [{ id := db.jobs.length, recording_id := recordingId, type := t,
         state := JobState.queued, payloadId := payload, attempts := 0,
         last_error := none, created_at := db.jobs.length }] }

/-- Result codes of markUploadCompletedAndSetRawKey. -/
inductive MarkCode where
  | ok
  | not_found
deriving DecidableEq, Repr

/-- markUploadCompletedAndSetRawKey of upload.repo.ts: one transaction that
refetches the upload with its track; returns not_found when the upload is
missing; returns ok without writing when the upload is already completed
and the track's raw key already equals relKey (idempotency guard);
otherwise sets Upload.state=completed and, on the related track,
state=uploaded and storage_key_raw=relKey. -/
def markUploadCompletedAndSetRawKey (db : DB) (uploadId relKey : String) :
    MarkCode × DB :=
  match findUpload db uploadId with
  | none => (MarkCode.not_found, db)
  | some existing =>
      if existing.state = UpState.completed
          ∧ (findTrack db existing.track_id).bind Track.storage_key_raw = some relKey then
        (MarkCode.ok, db)
      else
        (MarkCode.ok,
         { db with
           uploads := db.uploads.map fun u =>
             if u.id == uploadId then { u with state := UpState.completed } else u,
           tracks := db.tracks.map fun t =>
             if t.id == existing.track_id then
               { t with state := TrackState.uploaded, storage_key_raw := some relKey }
             else t })

/-- Storage-side effects the finalization services perform. -/
inductive StorageOp where
  | moveTus (src dest : String)
  | completeMultipart (bucket key multipartId : String) (manifest : List (Int × String))
  | headObject (bucket key : String)
deriving DecidableEq, Repr

/-- Return shape of both completion services:
bytes, storageKeyRaw, already (absent = false). -/
structure CompleteRes where
  bytes : Nat
  storageKeyRaw : String
  already : Bool
deriving DecidableEq, Repr

/-- Filesystem environment of the resumable (tus) path: the source file the
tusUrl / DB-mapping / .info-scan resolution locates (with its stat size),
and whether the rename-or-copy move succeeds.  The claims do not depend on
which of the three lookups found the file. -/
structure TusEnv where
  srcFile : Option (String × Nat)
  moveOk : Bool

/-- The raw storage key the resumable path builds:
recordings/recId/tracks/trackId/raw/uploadId.bin. -/
def tusRelKey (track : Track) (uploadId : String) : String :=
  "recordings/" ++ track.recording_id ++ "/tracks/" ++ track.id ++ "/raw/"
    ++ uploadId ++ ".bin"

/-- completeUploadService: resumable completion.  Looks up the upload with
its track; returns already=true without any effect when the upload is
completed and the track has a truthy raw key; otherwise locates the
assembled tus file, validates its size against expectedBytes when supplied,
moves it into canonical storage, marks the DB completed with the raw key in
one transaction, and enqueues a transcode job.  Errors are the AppError
codes of the source. -/
def completeUploadService (env : TusEnv) (uploadId : String)
    (expectedBytes : Option Nat) (db : DB) :
    Except String CompleteRes × DB × List StorageOp :=
  if uploadId = "" then (Except.error "bad_request", db, [])
  else
    match findUpload db uploadId with
    | none => (Except.error "not_found", db, [])
    | some upload =>
        match findTrack db upload.track_id with
        | none => (Except.error "invalid_state", db, [])
        | some track =>
            if upload.state = UpState.completed ∧ truthy track.storage_key_raw then
              (Except.ok
                { bytes := 0, storageKeyRaw := track.storage_key_raw.getD "",
                  already := true }, db, [])
            else
              match env.srcFile with
              | none => (Except.error "tusd_not_found", db, [])
              | some (src, got) =>
                  if (match expectedBytes with
                      | some exp => got != exp
                      | none => false) then
                    (Except.error "size_mismatch", db, [])
                  else
                    if env.moveOk = false then (Except.error "fs_move_failed", db, [])
                    else
                      let relKey := tusRelKey track uploadId
                      let mv := StorageOp.moveTus src relKey
                      match markUploadCompletedAndSetRawKey db uploadId relKey with
                      | (MarkCode.not_found, db1) =>
                          (Except.error "not_found", db1, [mv])
                      | (MarkCode.ok, db1) =>
                          let db2 := createJob db1 track.recording_id JobType.transcode
                            (some track.id)
                          (Except.ok
                            { bytes := got, storageKeyRaw := relKey, already := false },
                           db2, [mv])

/-- One submitted part: { partNumber, etag }. -/
structure PartInput where
  partNumber : Int
  etag : String
deriving DecidableEq, Repr

/-- Comparator of parts.sort((a, b) => a.partNumber - b.partNumber). -/
def partLe (a b : PartInput) : Bool := a.partNumber ≤ b.partNumber

/-- The sorted copy the service builds before completing on storage. -/
def sortParts (parts : List PartInput) : List PartInput :=
  parts.mergeSort partLe

/-- The { PartNumber, ETag } manifest handed to CompleteMultipartUpload. -/
def partsManifest (parts : List PartInput) : List (Int × String) :=
  (sortParts parts).map fun p => (p.partNumber, p.etag)

/-- Storage environment of the multipart path: what the HeadObject
size-verification call returns — a ContentLength, or a thrown error. -/
structure MpEnv where
  headContentLength : Except Unit Nat

/-- Catch block of completeMultipartUploadService: even when HEAD (or a
step after it) failed, mark the DB completed with the object key, enqueue
the transcode job, and answer with totalBytes ?? 0. -/
def mpCatch (uploadId objectKey recordingId trackId : String)
    (totalBytes : Option Nat) (ops : List StorageOp) (db : DB) :
    Except String CompleteRes × DB × List StorageOp :=
  match markUploadCompletedAndSetRawKey db uploadId objectKey with
  | (MarkCode.not_found, db1) => (Except.error "not_found", db1, ops)
  | (MarkCode.ok, db1) =>
      let db2 := createJob db1 recordingId JobType.transcode (some trackId)
      (Except.ok { bytes := totalBytes.getD 0, storageKeyRaw := objectKey, already := false },
       db2, ops)

/-- completeMultipartUploadService: validates input, looks up upload+track,
returns already=true without effect when completed with a truthy raw key,
requires the persisted multipart plan, completes the multipart session on
storage with the parts sorted ascending by partNumber, then tries HEAD for
size verification; whether HEAD succeeds or throws, it marks the DB
completed with the object key and enqueues a transcode job — the catch
path answers with totalBytes ?? 0 instead of the HEAD ContentLength. -/
def completeMultipartUploadService (env : MpEnv) (uploadId : String)
    (parts : List PartInput) (totalBytes : Option Nat) (db : DB) :
    Except String CompleteRes × DB × List StorageOp :=
  if uploadId = "" ∨ parts = [] then (Except.error "bad_request", db, [])
  else
    match findUpload db uploadId with
    | none => (Except.error "not_found", db, [])
    | some upload =>
        match findTrack db upload.track_id with
        | none => (Except.error "not_found", db, [])
        | some track =>
            if upload.state = UpState.completed ∧ truthy track.storage_key_raw then
              (Except.ok
                { bytes := upload.expected_size.getD 0,
                  storageKeyRaw := track.storage_key_raw.getD "", already := true },
               db, [])
            else
              if truthy upload.storage_bucket ∧ truthy upload.object_key
                  ∧ truthy upload.multipart_id then
                let bucket := upload.storage_bucket.getD ""
                let objectKey := upload.object_key.getD ""
                let mpId := upload.multipart_id.getD ""
                let ops := [StorageOp.completeMultipart bucket objectKey mpId
                              (partsManifest parts),
                            StorageOp.headObject bucket objectKey]
                match env.headContentLength with
                | Except.error _ =>
                    mpCatch uploadId objectKey track.recording_id track.id totalBytes ops db
                | Except.ok n =>
                    match markUploadCompletedAndSetRawKey db uploadId objectKey with
                    | (MarkCode.not_found, db1) =>
                        mpCatch uploadId objectKey track.recording_id track.id totalBytes
                          ops db1
                    | (MarkCode.ok, db1) =>
                        let db2 := createJob db1 track.recording_id JobType.transcode
                          (some track.id)
                        (Except.ok
                          { bytes := n, storageKeyRaw := objectKey, already := false },
                         db2, ops)
              else (Except.error "invalid_state", db, [])

/-! ## C9: part ordering at multipart completion -/

lemma partLe_trans : ∀ a b c : PartInput, partLe a b = true → partLe b c = true →
    partLe a c = true := by
  intro a b c hab hbc
  simp only [partLe, decide_eq_true_eq] at *
  omega

lemma partLe_total : ∀ a b : PartInput, (partLe a b || partLe b a) = true := by
  intro a b
  simp only [partLe, Bool.or_eq_true, decide_eq_true_eq]
  omega

/-- Two submitted parts sharing a part number but differing in etag. -/
def pX : PartInput := { partNumber := 1, etag := "a" }

/-- Same part number as pX, different etag. -/
def pY : PartInput := { partNumber := 1, etag := "b" }

/-- C9 counterexample: with a duplicated part number the manifest is NOT
invariant under permutation of the submitted list — the stable sort keeps
the submission order of the two equal-numbered parts. -/
theorem multipart_order_cex :
    [pX, pY].Perm [pY, pX] ∧ partsManifest [pX, pY] ≠ partsManifest [pY, pX] := by
  constructor
  · exact List.Perm.swap pY pX []
  · have h1 : sortParts [pX, pY] = [pX, pY] := by
      unfold sortParts
      exact List.mergeSort_of_sorted (by decide)
    have h2 : sortParts [pY, pX] = [pY, pX] := by
      unfold sortParts
      exact List.mergeSort_of_sorted (by decide)
    unfold partsManifest
    rw [h1, h2]
    decide

/-- C9 amended: the manifest handed to CompleteMultipartUpload is the
submitted list stably sorted ascending by part number; when the submitted
part numbers are pairwise distinct (the well-formed case), the sorted list
— hence the manifest and the storage call — is invariant under any
permutation of the submission order. -/
theorem multipart_manifest_sorted (parts parts2 : List PartInput)
    (hperm : parts.Perm parts2)
    (hnd : (parts.map PartInput.partNumber).Nodup) :
    (sortParts parts).Perm parts
      ∧ (sortParts parts).Pairwise (fun a b => partLe a b = true)
      ∧ sortParts parts = sortParts parts2 := by
  have hp1 : (sortParts parts).Perm parts := List.mergeSort_perm _ _
  have hp2 : (sortParts parts2).Perm parts2 := List.mergeSort_perm _ _
  have hs1 : (sortParts parts).Pairwise fun a b => partLe a b = true :=
    List.sorted_mergeSort partLe_trans partLe_total _
  have hs2 : (sortParts parts2).Pairwise fun a b => partLe a b = true :=
    List.sorted_mergeSort partLe_trans partLe_total _
  refine ⟨hp1, hs1, ?_⟩
  have hnd2 : (parts2.map PartInput.partNumber).Nodup :=
    (hperm.map PartInput.partNumber).nodup_iff.mp hnd
  have hnds1 : ((sortParts parts).map PartInput.partNumber).Nodup :=
    ((hp1.map PartInput.partNumber).nodup_iff).mpr hnd
  have hnds2 : ((sortParts parts2).map PartInput.partNumber).Nodup :=
    ((hp2.map PartInput.partNumber).nodup_iff).mpr hnd2
  have hperm12 : (sortParts parts).Perm (sortParts parts2) :=
    hp1.trans (hperm.trans hp2.symm)
  haveI : IsAntisymm PartInput
      (fun a b => a.partNumber < b.partNumber ∨ a = b) := by
    constructor
    intro a b hab hba
    rcases hab with h1 | h1
    · rcases hba with h2 | h2
      · exfalso; omega
      · exact h2.symm
    · exact h1
  have hstrict : ∀ l : List PartInput,
      (l.Pairwise fun a b => partLe a b = true) →
      (l.map PartInput.partNumber).Nodup →
      l.Sorted fun a b => a.partNumber < b.partNumber ∨ a = b := by
    intro l hle hndl
    have hne : l.Pairwise fun a b => a.partNumber ≠ b.partNumber :=
      List.pairwise_map.mp hndl
    refine (hle.and hne).imp ?_
    intro a b hab
    left
    have hle2 : a.partNumber ≤ b.partNumber := by
      have := hab.1
      simpa [partLe] using this
    have hne2 := hab.2
    omega
  exact List.eq_of_perm_of_sorted hperm12
    (hstrict _ hs1 hnds1) (hstrict _ hs2 hnds2)

/-- Witness for the amended C9 theorem: two distinct-numbered parts
submitted out of order sort to the same manifest as the in-order
submission. -/
theorem multipart_manifest_sorted_witness :
    (sortParts [{ partNumber := 3, etag := "c" }, { partNumber := 1, etag := "a" }]).Perm
        [{ partNumber := 3, etag := "c" }, { partNumber := 1, etag := "a" }]
      ∧ sortParts [{ partNumber := 3, etag := "c" }, { partNumber := 1, etag := "a" }]
          = sortParts [{ partNumber := 1, etag := "a" }, { partNumber := 3, etag := "c" }] :=
  ⟨(multipart_manifest_sorted
      [{ partNumber := 3, etag := "c" }, { partNumber := 1, etag := "a" }]
      [{ partNumber := 1, etag := "a" }, { partNumber := 3, etag := "c" }]
      (List.Perm.swap _ _ []) (by decide)).1,
   (multipart_manifest_sorted
      [{ partNumber := 3, etag := "c" }, { partNumber := 1, etag := "a" }]
      [{ partNumber := 1, etag := "a" }, { partNumber := 3, etag := "c" }]
      (List.Perm.swap _ _ []) (by decide)).2.2⟩

/-! ## Shared facts about the finalization services -/

lemma tusRelKey_ne_empty (tr : Track) (uid : String) : tusRelKey tr uid ≠ "" := by
  intro h
  have hlen := congrArg String.length h
  unfold tusRelKey at hlen
  simp only [String.length_append] at hlen
  have h11 : ("recordings/" : String).length = 11 := by decide
  rw [h11] at hlen
  have h0 : ("" : String).length = 0 := by decide
  rw [h0] at hlen
  omega

lemma find?_map_comm {α : Type} (p : α → Bool) (f : α → α)
    (hpf : ∀ x, p (f x) = p x) (l : List α) :
    (l.map fun x => if p x then f x else x).find? p = (l.find? p).map f := by
  induction l with
  | nil => rfl
  | cons a tl ih =>
      simp only [List.map_cons]
      by_cases hpa : p a = true
      · rw [if_pos hpa, List.find?_cons_of_pos _ (by rw [hpf a]; exact hpa),
          List.find?_cons_of_pos _ hpa]
        rfl
      · rw [if_neg hpa, List.find?_cons_of_neg _ hpa, List.find?_cons_of_neg _ hpa]
        exact ih

/-- Post-state both services produce on a first successful completion:
upload completed, track uploaded with the raw key, one new queued transcode
job appended (abbreviation for the composite of
markUploadCompletedAndSetRawKey and createJob on a fresh state). -/
def finalizedDB (db : DB) (uploadId trackId relKey recordingId payloadTrack : String) : DB :=
  { uploads := db.uploads.map fun u2 =>
      if u2.id == uploadId then { u2 with state := UpState.completed } else u2,
    tracks := db.tracks.map fun t =>
      if t.id == trackId then
        { t with state := TrackState.uploaded, storage_key_raw := some relKey }
      else t,
    jobs := db.jobs ++
      [{ id := db.jobs.length, recording_id := recordingId, type := JobType.transcode,
         state := JobState.queued, payloadId := some payloadTrack, attempts := 0,
         last_error := none, created_at := db.jobs.length }] }

lemma findUpload_finalizedDB (db : DB) (uploadId trackId relKey recId tid : String)
    (u : Upload) (hu : findUpload db uploadId = some u) :
    findUpload (finalizedDB db uploadId trackId relKey recId tid) uploadId
      = some { u with state := UpState.completed } := by
  show (db.uploads.map _).find? _ = _
  rw [find?_map_comm (fun x => x.id == uploadId)
    (fun x => { x with state := UpState.completed }) (fun _ => rfl) db.uploads]
  rw [show db.uploads.find? (fun x => x.id == uploadId) = some u from hu]
  rfl

lemma findTrack_finalizedDB (db : DB) (uploadId trackId relKey recId tid : String)
    (tr : Track) (htr : findTrack db trackId = some tr) :
    findTrack (finalizedDB db uploadId trackId relKey recId tid) trackId
      = some { tr with state := TrackState.uploaded, storage_key_raw := some relKey } := by
  show (db.tracks.map _).find? _ = _
  rw [find?_map_comm (fun t => t.id == trackId)
    (fun t => { t with state := TrackState.uploaded, storage_key_raw := some relKey })
    (fun _ => rfl) db.tracks]
  rw [show db.tracks.find? (fun t => t.id == trackId) = some tr from htr]
  rfl

/-- Outcome of a first (non-idempotent) successful resumable completion:
the result carries the file's byte count and the canonical raw key; the
post-state has the upload completed, the track uploaded with the raw key,
and one new queued transcode job; the move is the only storage effect.
Upload.bytes_received is untouched. -/
lemma completeUpload_first_eq (db : DB) (u : Upload) (tr : Track) (env : TusEnv)
    (src : String) (got : Nat) (expectedBytes : Option Nat)
    (hid : u.id ≠ "")
    (hu : findUpload db u.id = some u)
    (htr : findTrack db u.track_id = some tr)
    (hst : u.state = UpState.in_progress)
    (hsrc : env.srcFile = some (src, got))
    (hexp : expectedBytes = none ∨ expectedBytes = some got)
    (hmv : env.moveOk = true) :
    completeUploadService env u.id expectedBytes db =
      (Except.ok { bytes := got, storageKeyRaw := tusRelKey tr u.id, already := false },
       finalizedDB db u.id u.track_id (tusRelKey tr u.id) tr.recording_id tr.id,
       [StorageOp.moveTus src (tusRelKey tr u.id)]) := by
  have hmark : markUploadCompletedAndSetRawKey db u.id (tusRelKey tr u.id) =
      (MarkCode.ok,
       { db with
         uploads := db.uploads.map fun u2 =>
           if u2.id == u.id then { u2 with state := UpState.completed } else u2,
         tracks := db.tracks.map fun t =>
           if t.id == u.track_id then
             { t with state := TrackState.uploaded,
                      storage_key_raw := some (tusRelKey tr u.id) }
           else t }) := by
    simp only [markUploadCompletedAndSetRawKey, hu]
    rw [if_neg]
    intro hcon
    rw [hst] at hcon
    exact absurd hcon.1 (by simp)
  rcases hexp with hnone | hsome
  · subst hnone
    simp [completeUploadService, hu, htr, hsrc, hid, hst, hmv, hmark, createJob, finalizedDB]
  · subst hsome
    simp [completeUploadService, hu, htr, hsrc, hid, hst, hmv, hmark, createJob, finalizedDB]

/-- Idempotent return of the resumable path: a completed upload whose track
has a truthy raw key answers already=true immediately, with no state change
and no storage effect, whatever the filesystem environment holds. -/
lemma completeUpload_already (db : DB) (u : Upload) (tr : Track) (env : TusEnv)
    (expectedBytes : Option Nat)
    (hid : u.id ≠ "")
    (hu : findUpload db u.id = some u)
    (htr : findTrack db u.track_id = some tr)
    (hst : u.state = UpState.completed)
    (hraw : truthy tr.storage_key_raw = true) :
    completeUploadService env u.id expectedBytes db =
      (Except.ok { bytes := 0, storageKeyRaw := tr.storage_key_raw.getD "",
                   already := true }, db, []) := by
  simp [completeUploadService, hu, htr, hid, hst, hraw]

/-- Idempotent return of the multipart path. -/
lemma completeMultipart_already (db : DB) (u : Upload) (tr : Track) (env : MpEnv)
    (parts : List PartInput) (totalBytes : Option Nat)
    (hid : u.id ≠ "") (hparts : parts ≠ [])
    (hu : findUpload db u.id = some u)
    (htr : findTrack db u.track_id = some tr)
    (hst : u.state = UpState.completed)
    (hraw : truthy tr.storage_key_raw = true) :
    completeMultipartUploadService env u.id parts totalBytes db =
      (Except.ok { bytes := u.expected_size.getD 0,
                   storageKeyRaw := tr.storage_key_raw.getD "", already := true },
       db, []) := by
  simp [completeMultipartUploadService, hu, htr, hid, hparts, hst, hraw]

/-- Mark transaction on a fresh (in_progress) upload: always ok, producing
the completed upload + uploaded track with the raw key. -/
lemma mark_fresh_eq (db : DB) (u : Upload) (relKey : String)
    (hu : findUpload db u.id = some u)
    (hst : u.state = UpState.in_progress) :
    markUploadCompletedAndSetRawKey db u.id relKey =
      (MarkCode.ok,
       { db with
         uploads := db.uploads.map fun u2 =>
           if u2.id == u.id then { u2 with state := UpState.completed } else u2,
         tracks := db.tracks.map fun t =>
           if t.id == u.track_id then
             { t with state := TrackState.uploaded, storage_key_raw := some relKey }
           else t }) := by
  simp only [markUploadCompletedAndSetRawKey, hu]
  rw [if_neg]
  intro hcon
  rw [hst] at hcon
  exact absurd hcon.1 (by simp)

/-- First multipart completion when HEAD succeeds with ContentLength n. -/
lemma completeMultipart_first_okHead (db : DB) (u : Upload) (tr : Track) (env : MpEnv)
    (parts : List PartInput) (totalBytes : Option Nat) (n : Nat)
    (hid : u.id ≠ "") (hparts : parts ≠ [])
    (hu : findUpload db u.id = some u)
    (htr : findTrack db u.track_id = some tr)
    (hst : u.state = UpState.in_progress)
    (hb : truthy u.storage_bucket = true) (hk : truthy u.object_key = true)
    (hm : truthy u.multipart_id = true)
    (hhead : env.headContentLength = Except.ok n) :
    completeMultipartUploadService env u.id parts totalBytes db =
      (Except.ok { bytes := n, storageKeyRaw := u.object_key.getD "", already := false },
       finalizedDB db u.id u.track_id (u.object_key.getD "") tr.recording_id tr.id,
       [StorageOp.completeMultipart (u.storage_bucket.getD "") (u.object_key.getD "")
          (u.multipart_id.getD "") (partsManifest parts),
        StorageOp.headObject (u.storage_bucket.getD "") (u.object_key.getD "")]) := by
  have hmark := mark_fresh_eq db u (u.object_key.getD "") hu hst
  simp [completeMultipartUploadService, hu, htr, hid, hparts, hst, hb, hk, hm, hhead,
    hmark, createJob, finalizedDB]

/-- First multipart completion when HEAD throws: the catch path still marks
the DB completed and enqueues the transcode job, answering totalBytes ?? 0. -/
lemma completeMultipart_first_errHead (db : DB) (u : Upload) (tr : Track) (env : MpEnv)
    (parts : List PartInput) (totalBytes : Option Nat)
    (hid : u.id ≠ "") (hparts : parts ≠ [])
    (hu : findUpload db u.id = some u)
    (htr : findTrack db u.track_id = some tr)
    (hst : u.state = UpState.in_progress)
    (hb : truthy u.storage_bucket = true) (hk : truthy u.object_key = true)
    (hm : truthy u.multipart_id = true)
    (hhead : env.headContentLength = Except.error ()) :
    completeMultipartUploadService env u.id parts totalBytes db =
      (Except.ok { bytes := totalBytes.getD 0, storageKeyRaw := u.object_key.getD "",
                   already := false },
       finalizedDB db u.id u.track_id (u.object_key.getD "") tr.recording_id tr.id,
       [StorageOp.completeMultipart (u.storage_bucket.getD "") (u.object_key.getD "")
          (u.multipart_id.getD "") (partsManifest parts),
        StorageOp.headObject (u.storage_bucket.getD "") (u.object_key.getD "")]) := by
  have hmark := mark_fresh_eq db u (u.object_key.getD "") hu hst
  simp [completeMultipartUploadService, mpCatch, hu, htr, hid, hparts, hst, hb, hk, hm,
    hhead, hmark, createJob, finalizedDB]

/-- The multipart path has no size-verification failure: no run of the
service ever surfaces the size_mismatch error code. -/
lemma multipart_no_size_mismatch (env : MpEnv) (uploadId : String)
    (parts : List PartInput) (totalBytes : Option Nat) (db : DB) :
    (completeMultipartUploadService env uploadId parts totalBytes db).1
      ≠ Except.error "size_mismatch" := by
  unfold completeMultipartUploadService mpCatch
  repeat' split
  all_goals dsimp only
  repeat' split
  all_goals simp

lemma truthy_getD (o : Option String) (h : truthy o = true) :
    truthy (some (o.getD "")) = true := by
  cases o with
  | none => simp [truthy] at h
  | some s => simpa [truthy] using h

/-! ## Concrete upload state used by the witnesses -/

/-- Concrete track awaiting its resumable upload. -/
def trU : Track :=
  { id := "t1", recording_id := "r1", participant_id := "p1", kind := TrackKind.audio,
    codec := none, duration_ms := none, storage_key_raw := none,
    storage_key_final := none, state := TrackState.recording, created_at := 0 }

/-- Concrete in-progress resumable upload for trU. -/
def upU : Upload :=
  { id := "u1", track_id := "t1", protocol := "tus", bytes_received := 0,
    state := UpState.in_progress, expected_size := none, multipart_id := none,
    object_key := none, part_size := none, storage_bucket := none }

/-- Concrete store for the resumable scenarios. -/
def dbU : DB := { uploads := [upU], tracks := [trU], jobs := [] }

/-- Environment with a located 950-byte assembled file and a working move. -/
def envU : TusEnv := { srcFile := some ("tusdata", 950), moveOk := true }

/-- Concrete track awaiting its multipart upload. -/
def trM : Track :=
  { id := "t2", recording_id := "r2", participant_id := "p2", kind := TrackKind.video,
    codec := none, duration_ms := none, storage_key_raw := none,
    storage_key_final := none, state := TrackState.recording, created_at := 0 }

/-- Concrete in-progress multipart upload with its persisted plan. -/
def upM : Upload :=
  { id := "u2", track_id := "t2", protocol := "multipart", bytes_received := 0,
    state := UpState.in_progress, expected_size := some 1000,
    multipart_id := some "mp1", object_key := some "objkey",
    part_size := some 8388608, storage_bucket := some "bucket" }

/-- Concrete store for the multipart scenarios. -/
def dbM0 : DB := { uploads := [upM], tracks := [trM], jobs := [] }

/-- HEAD succeeds, reporting 1000 bytes. -/
def envHeadOk : MpEnv := { headContentLength := Except.ok 1000 }

/-- HEAD throws. -/
def envHeadErr : MpEnv := { headContentLength := Except.error () }

/-- One submitted part list. -/
def partsW : List PartInput := [{ partNumber := 1, etag := "e1" }]

/-! ## C8, C4, C3, C10 -/

/-- C8: a resumable completion whose expectedBytes differs from the actual
size of the assembled file fails with size_mismatch, leaving the store
(upload, track, jobs) exactly as it was and performing no storage
operation — no move, no transcode enqueue. -/
theorem size_mismatch_no_effect (db : DB) (u : Upload) (tr : Track) (env : TusEnv)
    (src : String) (got exp : Nat)
    (hid : u.id ≠ "")
    (hu : findUpload db u.id = some u)
    (htr : findTrack db u.track_id = some tr)
    (hst : u.state = UpState.in_progress)
    (hsrc : env.srcFile = some (src, got))
    (hne : got ≠ exp) :
    completeUploadService env u.id (some exp) db
      = (Except.error "size_mismatch", db, []) := by
  simp [completeUploadService, hu, htr, hsrc, hid, hst, hne]

/-- Witness for C8: expectedBytes 1000 against a 950-byte assembled file. -/
theorem size_mismatch_no_effect_witness :
    completeUploadService envU upU.id (some 1000) dbU
      = (Except.error "size_mismatch", dbU, []) :=
  size_mismatch_no_effect dbU upU trU envU "tusdata" 950 1000
    (by decide) (by decide) (by decide) rfl rfl (by decide)

/-- C4 amended: a first (non-idempotent) successful resumable completion
sets Upload.state=completed and Track.state=uploaded with the raw storage
key in one repository transaction and then enqueues one queued transcode
job referencing the track; Upload.bytes_received is NOT updated — the
completed upload row keeps the bytes_received it was created with. -/
theorem first_completion_effects (db : DB) (u : Upload) (tr : Track) (env : TusEnv)
    (src : String) (got : Nat) (expectedBytes : Option Nat)
    (hid : u.id ≠ "")
    (hu : findUpload db u.id = some u)
    (htr : findTrack db u.track_id = some tr)
    (hst : u.state = UpState.in_progress)
    (hsrc : env.srcFile = some (src, got))
    (hexp : expectedBytes = none ∨ expectedBytes = some got)
    (hmv : env.moveOk = true) :
    completeUploadService env u.id expectedBytes db =
      (Except.ok { bytes := got, storageKeyRaw := tusRelKey tr u.id, already := false },
       finalizedDB db u.id u.track_id (tusRelKey tr u.id) tr.recording_id tr.id,
       [StorageOp.moveTus src (tusRelKey tr u.id)])
    ∧ findUpload (finalizedDB db u.id u.track_id (tusRelKey tr u.id)
          tr.recording_id tr.id) u.id
        = some { u with state := UpState.completed } :=
  ⟨completeUpload_first_eq db u tr env src got expectedBytes hid hu htr hst hsrc hexp hmv,
   findUpload_finalizedDB db u.id u.track_id _ _ _ u hu⟩

/-- C4 counterexample: after a first successful completion of a 950-byte
upload, the stored Upload.bytes_received is still 0, not the received byte
count 950 that the claim says finalization sets. -/
theorem bytes_received_not_set_cex :
    (completeUploadService envU upU.id (some 950) dbU).1
        = Except.ok { bytes := 950, storageKeyRaw := tusRelKey trU upU.id,
                      already := false }
      ∧ ((completeUploadService envU upU.id (some 950) dbU).2.1.uploads.map
          Upload.bytes_received) = [0]
      ∧ (0 : Nat) ≠ 950 := by
  refine ⟨rfl, by decide, by decide⟩

/-- Witness for the amended C4 theorem at the concrete 950-byte upload. -/
theorem first_completion_effects_witness :
    completeUploadService envU upU.id none dbU =
      (Except.ok { bytes := 950, storageKeyRaw := tusRelKey trU upU.id,
                   already := false },
       finalizedDB dbU upU.id upU.track_id (tusRelKey trU upU.id)
         trU.recording_id trU.id,
       [StorageOp.moveTus "tusdata" (tusRelKey trU upU.id)]) :=
  (first_completion_effects dbU upU trU envU "tusdata" 950 none
    (by decide) (by decide) (by decide) rfl rfl (Or.inl rfl) rfl).1

/-- C3: after a first successful completion (resumable or multipart), a
second call with the same uploadId and identical payload returns
already=true with the same raw key and performs no further action: the
store is unchanged, no storage operation runs, no second transcode job is
created — whatever filesystem or storage environment the second call sees. -/
theorem completion_idempotent
    (db : DB) (u : Upload) (tr : Track) (env : TusEnv) (src : String) (got : Nat)
    (expectedBytes : Option Nat)
    (hid : u.id ≠ "") (hu : findUpload db u.id = some u)
    (htr : findTrack db u.track_id = some tr) (hst : u.state = UpState.in_progress)
    (hsrc : env.srcFile = some (src, got))
    (hexp : expectedBytes = none ∨ expectedBytes = some got) (hmv : env.moveOk = true)
    (db2 : DB) (u2 : Upload) (tr2 : Track) (env2 : MpEnv) (parts : List PartInput)
    (totalBytes : Option Nat) (n2 : Nat)
    (hid2 : u2.id ≠ "") (hparts : parts ≠ [])
    (hu2 : findUpload db2 u2.id = some u2) (htr2 : findTrack db2 u2.track_id = some tr2)
    (hst2 : u2.state = UpState.in_progress)
    (hb2 : truthy u2.storage_bucket = true) (hk2 : truthy u2.object_key = true)
    (hm2 : truthy u2.multipart_id = true)
    (hhead2 : env2.headContentLength = Except.ok n2) :
    (completeUploadService env u.id expectedBytes db).1
        = Except.ok { bytes := got, storageKeyRaw := tusRelKey tr u.id, already := false }
    ∧ (∀ env3 : TusEnv,
        completeUploadService env3 u.id expectedBytes
            (completeUploadService env u.id expectedBytes db).2.1
          = (Except.ok { bytes := 0, storageKeyRaw := tusRelKey tr u.id, already := true },
             (completeUploadService env u.id expectedBytes db).2.1, []))
    ∧ (completeMultipartUploadService env2 u2.id parts totalBytes db2).1
        = Except.ok { bytes := n2, storageKeyRaw := u2.object_key.getD "",
                      already := false }
    ∧ (∀ env4 : MpEnv,
        completeMultipartUploadService env4 u2.id parts totalBytes
            (completeMultipartUploadService env2 u2.id parts totalBytes db2).2.1
          = (Except.ok { bytes := u2.expected_size.getD 0,
                         storageKeyRaw := u2.object_key.getD "", already := true },
             (completeMultipartUploadService env2 u2.id parts totalBytes db2).2.1,
             [])) := by
  have heq := completeUpload_first_eq db u tr env src got expectedBytes
    hid hu htr hst hsrc hexp hmv
  have heqM := completeMultipart_first_okHead db2 u2 tr2 env2 parts totalBytes n2
    hid2 hparts hu2 htr2 hst2 hb2 hk2 hm2 hhead2
  refine ⟨by rw [heq], ?_, by rw [heqM], ?_⟩
  · intro env3
    rw [heq]
    dsimp only
    have hu1 := findUpload_finalizedDB db u.id u.track_id (tusRelKey tr u.id)
      tr.recording_id tr.id u hu
    have htr1 := findTrack_finalizedDB db u.id u.track_id (tusRelKey tr u.id)
      tr.recording_id tr.id tr htr
    have hraw : truthy (some (tusRelKey tr u.id)) = true := by
      simp only [truthy, bne_iff_ne, ne_eq, decide_eq_true_eq]
      exact tusRelKey_ne_empty tr u.id
    exact completeUpload_already _ { u with state := UpState.completed }
      { tr with state := TrackState.uploaded,
                storage_key_raw := some (tusRelKey tr u.id) }
      env3 expectedBytes hid hu1 htr1 rfl hraw
  · intro env4
    rw [heqM]
    dsimp only
    have hu1 := findUpload_finalizedDB db2 u2.id u2.track_id (u2.object_key.getD "")
      tr2.recording_id tr2.id u2 hu2
    have htr1 := findTrack_finalizedDB db2 u2.id u2.track_id (u2.object_key.getD "")
      tr2.recording_id tr2.id tr2 htr2
    have hraw : truthy (some (u2.object_key.getD "")) = true := truthy_getD _ hk2
    exact completeMultipart_already _ { u2 with state := UpState.completed }
      { tr2 with state := TrackState.uploaded,
                 storage_key_raw := some (u2.object_key.getD "") }
      env4 parts totalBytes hid2 hparts hu1 htr1 rfl hraw

/-- Witness for C3 at the concrete resumable and multipart uploads. -/
theorem completion_idempotent_witness :
    (completeUploadService envU upU.id none dbU).1
        = Except.ok { bytes := 950, storageKeyRaw := tusRelKey trU upU.id,
                      already := false }
      ∧ (completeMultipartUploadService envHeadOk upM.id partsW none dbM0).1
          = Except.ok { bytes := 1000, storageKeyRaw := upM.object_key.getD "",
                        already := false } :=
  ⟨(completion_idempotent dbU upU trU envU "tusdata" 950 none
      (by decide) (by decide) (by decide) rfl rfl (Or.inl rfl) rfl
      dbM0 upM trM envHeadOk partsW none 1000
      (by decide) (by decide) (by decide) (by decide) rfl
      (by decide) (by decide) (by decide) rfl).1,
   (completion_idempotent dbU upU trU envU "tusdata" 950 none
      (by decide) (by decide) (by decide) rfl rfl (Or.inl rfl) rfl
      dbM0 upM trM envHeadOk partsW none 1000
      (by decide) (by decide) (by decide) (by decide) rfl
      (by decide) (by decide) (by decide) rfl).2.2.1⟩

/-- C10: when the multipart session completes on storage but the
size-verification HEAD call throws, the service still marks the upload
completed, sets the track's raw key to the object key, enqueues one
transcode job, and returns normally with bytes = totalBytes ?? 0; and no
execution of the multipart path ever surfaces a size_mismatch error. -/
theorem multipart_head_failure_completes (db : DB) (u : Upload) (tr : Track)
    (env : MpEnv) (parts : List PartInput) (totalBytes : Option Nat)
    (hid : u.id ≠ "") (hparts : parts ≠ [])
    (hu : findUpload db u.id = some u)
    (htr : findTrack db u.track_id = some tr)
    (hst : u.state = UpState.in_progress)
    (hb : truthy u.storage_bucket = true) (hk : truthy u.object_key = true)
    (hm : truthy u.multipart_id = true)
    (hhead : env.headContentLength = Except.error ()) :
    completeMultipartUploadService env u.id parts totalBytes db =
      (Except.ok { bytes := totalBytes.getD 0, storageKeyRaw := u.object_key.getD "",
                   already := false },
       finalizedDB db u.id u.track_id (u.object_key.getD "") tr.recording_id tr.id,
       [StorageOp.completeMultipart (u.storage_bucket.getD "") (u.object_key.getD "")
          (u.multipart_id.getD "") (partsManifest parts),
        StorageOp.headObject (u.storage_bucket.getD "") (u.object_key.getD "")])
    ∧ ∀ (env2 : MpEnv) (uid : String) (p2 : List PartInput) (tb : Option Nat) (d : DB),
        (completeMultipartUploadService env2 uid p2 tb d).1
          ≠ Except.error "size_mismatch" :=
  ⟨completeMultipart_first_errHead db u tr env parts totalBytes
      hid hparts hu htr hst hb hk hm hhead,
   fun env2 uid p2 tb d => multipart_no_size_mismatch env2 uid p2 tb d⟩

/-- Witness for C10: HEAD throws, totalBytes 777 supplied; completion still
returns ok with bytes 777 and the object key. -/
theorem multipart_head_failure_completes_witness :
    (completeMultipartUploadService envHeadErr upM.id partsW (some 777) dbM0).1
      = Except.ok { bytes := 777, storageKeyRaw := "objkey", already := false } := by
  rw [(multipart_head_failure_completes dbM0 upM trM envHeadErr partsW (some 777)
    (by decide) (by decide) (by decide) (by decide) rfl
    (by decide) (by decide) (by decide) rfl).1]
  rfl

end StudioCast
